import Mathlib

/-!
Verification development for the SeaShell IPA patch pipeline
(`src/seashell/core/hook.py`).

The embedding models:
 * property-list documents (`plistlib` values) as an inductive `PlistValue`
   with documents as ordered association lists (Python dicts preserve
   insertion order; updating an existing key keeps its position);
 * `_sanitize_executable` over Lean `String` with the POSIX convention
   `os.path.sep = '/'`, `os.path.altsep = None`;
 * `_safe_extract_zip` over archives as lists of (member-name, bytes),
   where `os.path.realpath` is modelled as lexical path normalisation
   (the extraction directory is a fresh temporary directory, so no
   symbolic links are involved) on `/`-separated segment lists;
 * `Hook.patch_ipa` over an explicit scratch-tree filesystem model, with
   a fault vector injecting the environmental failures (rename, copy,
   chmod, rebuild) that the claims quantify over.
-/

namespace SeaShell

/-- A plistlib value: string, integer, boolean, binary data, nested
mapping (dict), or array. -/
inductive PlistValue where
  | pstr (s : String)
  | pint (n : Int)
  | pbool (b : Bool)
  | pdata (bytes : List Nat)
  | pdict (entries : List (String × PlistValue))
  | parr (items : List PlistValue)

/-- A metadata descriptor (an `Info.plist` document): an ordered
key/value mapping, as `plistlib.load` produces for a dict root. -/
abbrev Plist := List (String × PlistValue)

/-- First-match association-list lookup: the model of `d[key]` /
`key in d` on a Python dict rendered as its insertion-ordered items. -/
def lookupKey {α : Type} : List (String × α) → String → Option α
  | [], _ => none
  | (k, v) :: rest, key => if k = key then some v else lookupKey rest key

/-- `d[key] = v` on a Python dict: replaces the value at the first
occurrence of `key`, keeping its position, or appends a fresh entry. -/
def setKey {α : Type} : List (String × α) → String → α → List (String × α)
  | [], key, v => [(key, v)]
  | (k, w) :: rest, key, v =>
      if k = key then (k, v) :: rest else (k, w) :: setKey rest key v

/-- `'..' in name`: some suffix of the character list starts with
`['.', '.']`. -/
def containsDotDot (s : String) : Bool :=
  s.data.tails.any (fun t => List.isPrefixOf ['.', '.'] t)

/-- Model of `_sanitize_executable` (`hook.py` lines 49-56) on POSIX:
returns `''` when the name is empty, exactly `.` or `..`, contains the
path separator `/` (`os.path.altsep` is `None`), or contains the
substring `..`; otherwise returns the name unchanged. -/
def sanitize_executable (name : String) : String :=
  if name = "" ∨ name = "." ∨ name = ".." then ""
  else if name.data.contains '/' then ""
  else if containsDotDot name then ""
  else name

/-- Model of `Hook.get_executable` (`hook.py` lines 127-141) at the
document level: if `CFBundleExecutable` is present with a string value,
return the sanitised value; if the key is absent, return `''`. A present
non-string value falls outside the declared `-> str` contract and makes
the sanitiser raise, modelled as `.error`. -/
def get_executable (pl : Plist) : Except Unit String :=
  match lookupKey pl "CFBundleExecutable" with
  | some (.pstr s) => .ok (sanitize_executable s)
  | some _ => .error ()
  | none => .ok ""

/-- Model of `Hook.patch_plist` (`hook.py` lines 143-160) at the
document level: load the descriptor, set `CFBundleSignature` to the
endpoint tag (`revert = false`) or to the placeholder `"????"`
(`revert = true`), leaving every other entry in place. -/
def patch_plist (hash : String) (revert : Bool) (pl : Plist) : Plist :=
  if revert = false then setKey pl "CFBundleSignature" (.pstr hash)
  else setKey pl "CFBundleSignature" (.pstr "????")

/-! ### Archive Guard: `_safe_extract_zip` -/

/-- Helper for `splitPath`: splits a character list at `/`, carrying the
characters of the current segment in reverse. -/
def splitPathAux : List Char → List Char → List String
  | [], acc => [String.mk acc.reverse]
  | c :: rest, acc =>
      if c = '/' then String.mk acc.reverse :: splitPathAux rest []
      else splitPathAux rest (c :: acc)

/-- Split a `/`-separated path string into its raw segments, with the
semantics of Python `s.split('/')` (empty segments preserved). -/
def splitPath (s : String) : List String := splitPathAux s.data []

/-- Lexical path normalisation from the filesystem root, as
`os.path.realpath` performs on a symlink-free path: empty segments and
`.` are dropped, `..` removes the previous segment (and is a no-op at
the root, matching `realpath("/..") = "/"`). A path is represented by
its list of segments below the root. -/
def normSegs (segs : List String) : List String :=
  segs.foldl
    (fun acc seg =>
      if seg = "" || seg = "." then acc
      else if seg = ".." then acc.dropLast
      else acc ++ [seg])
    []

/-- `os.path.realpath(os.path.join(base, member))` for an archive member
name: an absolute member name replaces `base` (Python `os.path.join`
semantics), otherwise the member is resolved below `base`. -/
def resolveEntry (base : List String) (member : String) : List String :=
  if List.isPrefixOf ['/'] member.data then normSegs (splitPath member)
  else normSegs (base ++ splitPath member)

/-- The containment test `target.startswith(base + os.sep)` of
`_safe_extract_zip`, at the segment level: since `base` and `target` are
both normalised segment lists (no empty, `.` or `..` segments, no `/`
inside a segment), the string test holds exactly when `base` is a
proper prefix of `target`'s segments. -/
def entrySafe (base : List String) (member : String) : Bool :=
  let target := resolveEntry base member
  List.isPrefixOf base target && base.length < target.length

/-- The error raised for a path-escaping archive entry
(`RuntimeError("Unsafe path in archive")`). -/
inductive ArchiveError where
  | unsafePath
deriving DecidableEq

/-- Model of `_safe_extract_zip` (`hook.py` lines 39-46): an archive is
a list of (member name, content) pairs; the function first checks every
member name of the full listing against the containment test and only
then extracts, so a rejected archive produces no write at all. On
success it returns the list of (resolved destination, content) writes
that `extractall` materialises. -/
def safe_extract_zip (entries : List (String × List Nat))
    (extractDir : List String) :
    Except ArchiveError (List (List String × List Nat)) :=
  let base := normSegs extractDir
  if entries.all (fun m => entrySafe base m.1) then
    .ok (entries.map (fun m => (resolveEntry base m.1, m.2)))
  else
    .error .unsafePath

/-! ### Scratch-tree filesystem model and `Hook.patch_ipa` -/

/-- The content of a regular file in the scratch tree: raw bytes, or a
parseable property-list document (`plistlib.load` succeeds exactly on
the latter). -/
inductive FileContent where
  | raw (bytes : List Nat)
  | plist (pl : List (String × PlistValue))

/-- A filesystem node: a regular file with content and permission mode,
or a directory with named children in directory-listing order. -/
inductive Node where
  | file (content : FileContent) (mode : Nat)
  | dir (children : List (String × Node))

/-- A directory's children; the extracted scratch tree and an archive's
content are both given as the children of their root directory. -/
abbrev Tree := List (String × Node)

/-- Remove the first entry with the given key (`os.remove` /
the source side of `shutil.move`). -/
def removeKey {α : Type} : List (String × α) → String → List (String × α)
  | [], _ => []
  | (k, v) :: rest, key =>
      if k = key then rest else (k, v) :: removeKey rest key

/-- `os.chmod(dir/name, mode)` on a regular file: replace its permission
mode, keeping the content. -/
def chmodKey (l : Tree) (name : String) (mode : Nat) : Tree :=
  match lookupKey l name with
  | some (.file c _) => setKey l name (.file c mode)
  | _ => l

/-- `s.endswith(suffix)` at the character-list level. -/
def endsWithStr (s suffix : String) : Bool :=
  List.isPrefixOf suffix.data.reverse s.data.reverse

/-- Environmental failure injection for the fallible filesystem steps of
`patch_ipa`: `false` means the corresponding operation raises
(bad/unsafe archive, disk full, permission denial, ...). -/
structure Faults where
  extractOk : Bool
  plistWriteOk : Bool
  moveOk : Bool
  copyMainOk : Bool
  copyMusselOk : Bool
  chmodMainOk : Bool
  chmodMusselOk : Bool
  rebuildOk : Bool

/-- The fault-free run. -/
def Faults.allOk : Faults := ⟨true, true, true, true, true, true, true, true⟩

/-- Which step of `patch_ipa` raised. -/
inductive PatchError where
  | extractFailed
  | plistUnreadable
  | plistWriteFailed
  | moveFailed
  | copyFailed
  | chmodFailed
  | rebuildFailed
deriving DecidableEq

/-- Result of a `patch_ipa` run: the outcome (normal return or raised
error) and the content of the file at the archive path afterwards
(`none` means the archive was deleted and not replaced). -/
structure PatchResult where
  outcome : Except PatchError Unit
  archive : Option Tree

/-- Model of `Hook.patch_ipa` (`hook.py` lines 84-125). `orig` is the
scratch tree produced by extracting the original archive; the archive
file at the input path is identified with its extracted content, and is
left untouched (`some orig`) on every path that returns or raises before
`os.remove(path)`. Step order follows the source: safe extraction;
`Payload` directory check; `.app` listing; `Info.plist` load and
`get_executable`; `patch_plist`; `shutil.move` of the executable to
`.hooked`; `shutil.copy` of the replacement (content `mainBytes`, source
mode `mainMode`) and of the helper (`musselBytes`, `musselMode`);
`os.chmod` of both to `0o777` (511); `os.remove` of the archive; rebuild
of the archive from the `Payload` directory alone. -/
def patch_ipa (f : Faults) (hash : String)
    (mainBytes musselBytes : List Nat) (mainMode musselMode : Nat)
    (orig : Tree) : PatchResult :=
  if f.extractOk = false then ⟨.error .extractFailed, some orig⟩ else
  match lookupKey orig "Payload" with
  | some (.dir payload) =>
    match (payload.map Prod.fst).filter (fun n => endsWithStr n ".app") with
    | [] => ⟨.ok (), some orig⟩
    | appName :: _ =>
      match lookupKey payload appName with
      | some (.dir bch) =>
        match lookupKey bch "Info.plist" with
        | some (.file (.plist pl) plMode) =>
          match get_executable pl with
          | .error _ => ⟨.error .plistUnreadable, some orig⟩
          | .ok e =>
            if e = "" then ⟨.ok (), some orig⟩ else
            if f.plistWriteOk = false then ⟨.error .plistWriteFailed, some orig⟩ else
            if f.moveOk = false then ⟨.error .moveFailed, some orig⟩ else
            match lookupKey (setKey bch "Info.plist"
                (.file (.plist (patch_plist hash false pl)) plMode)) e with
            | none => ⟨.error .moveFailed, some orig⟩
            | some execNode =>
              if f.copyMainOk = false then ⟨.error .copyFailed, some orig⟩ else
              if f.copyMusselOk = false then ⟨.error .copyFailed, some orig⟩ else
              if f.chmodMainOk = false then ⟨.error .chmodFailed, some orig⟩ else
              if f.chmodMusselOk = false then ⟨.error .chmodFailed, some orig⟩ else
              if f.rebuildOk = false then ⟨.error .rebuildFailed, none⟩ else
              ⟨.ok (), some [("Payload", .dir (setKey payload appName (.dir
                (chmodKey (chmodKey (setKey (setKey (setKey
                  (removeKey (setKey bch "Info.plist"
                    (.file (.plist (patch_plist hash false pl)) plMode)) e)
                  (e ++ ".hooked") execNode)
                  e (.file (.raw mainBytes) mainMode))
                  "mussel" (.file (.raw musselBytes) musselMode))
                  e 511) "mussel" 511))))]⟩
        | _ => ⟨.error .plistUnreadable, some orig⟩
      | _ => ⟨.error .plistUnreadable, some orig⟩
  | _ => ⟨.ok (), some orig⟩

/-! ### Association-list lemmas -/

theorem lookupKey_setKey_self {α : Type} (l : List (String × α)) (k : String) (v : α) :
    lookupKey (setKey l k v) k = some v := by
  induction l with
  | nil => simp [setKey, lookupKey]
  | cons hd tl ih =>
      obtain ⟨a, b⟩ := hd
      by_cases h : a = k
      · simp [setKey, lookupKey, h]
      · simp [setKey, lookupKey, h, ih]

theorem lookupKey_setKey_ne {α : Type} {k k' : String} (h : k' ≠ k)
    (l : List (String × α)) (v : α) :
    lookupKey (setKey l k v) k' = lookupKey l k' := by
  induction l with
  | nil => simp [setKey, lookupKey, Ne.symm h]
  | cons hd tl ih =>
      obtain ⟨a, b⟩ := hd
      by_cases ha : a = k
      · subst ha
        simp [setKey, lookupKey, Ne.symm h]
      · simp [setKey, lookupKey, ha, ih]

theorem lookupKey_removeKey_ne {α : Type} {k k' : String} (h : k' ≠ k)
    (l : List (String × α)) :
    lookupKey (removeKey l k) k' = lookupKey l k' := by
  induction l with
  | nil => simp [removeKey]
  | cons hd tl ih =>
      obtain ⟨a, b⟩ := hd
      by_cases ha : a = k
      · subst ha
        simp [removeKey, lookupKey, Ne.symm h]
      · simp [removeKey, lookupKey, ha, ih]

theorem setKey_setKey_self {α : Type} (l : List (String × α)) (k : String) (v v' : α) :
    setKey (setKey l k v) k v' = setKey l k v' := by
  induction l with
  | nil => simp [setKey]
  | cons hd tl ih =>
      obtain ⟨a, b⟩ := hd
      by_cases h : a = k
      · simp [setKey, h]
      · simp [setKey, h, ih]

/-- A renamed executable name differs from the original: appending the
non-empty suffix `.hooked` strictly grows the length. -/
theorem append_hooked_ne (s : String) : s ++ ".hooked" ≠ s := by
  intro h
  have hlen := congrArg String.length h
  rw [String.length_append] at hlen
  have h7 : (".hooked" : String).length = 7 := rfl
  rw [h7] at hlen
  omega

/-- The sanitiser either rejects (returns `""`) or returns its input
unchanged, and in the latter case the input passed every check. -/
theorem sanitize_executable_spec (s : String) :
    sanitize_executable s = "" ∨
      (sanitize_executable s = s ∧ s ≠ "" ∧ s ≠ "." ∧ s ≠ ".." ∧
       s.data.contains '/' = false ∧ containsDotDot s = false) := by
  unfold sanitize_executable
  split
  · exact Or.inl rfl
  · rename_i h1
    push_neg at h1
    split
    · exact Or.inl rfl
    · rename_i h2
      split
      · exact Or.inl rfl
      · rename_i h3
        exact Or.inr ⟨rfl, h1.1, h1.2.1, h1.2.2,
          Bool.not_eq_true _ ▸ h2, Bool.not_eq_true _ ▸ h3⟩

/-! ### Claim theorems: sanitiser and metadata tagger -/

/-- Claim C5: `_sanitize_executable` rejects (returns the empty string,
i.e. Absent) every value that is empty, exactly `.` or `..`, contains a
path-separator character, or contains the substring `..`; in particular
each of `""`, `"."`, `".."`, `"a/b"`, `"a/../b"`, `"../etc/passwd"` is
rejected; and a name surviving `get_executable` non-empty passed all
four checks. -/
theorem sanitize_executable_rejects :
    (∀ s : String,
        (s = "" ∨ s = "." ∨ s = ".." ∨ s.data.contains '/' = true ∨
          containsDotDot s = true) →
        sanitize_executable s = "") ∧
    sanitize_executable "" = "" ∧ sanitize_executable "." = "" ∧
    sanitize_executable ".." = "" ∧ sanitize_executable "a/b" = "" ∧
    sanitize_executable "a/../b" = "" ∧
    sanitize_executable "../etc/passwd" = "" ∧
    (∀ (pl : Plist) (e : String), get_executable pl = .ok e → e ≠ "" →
        e ≠ "." ∧ e ≠ ".." ∧ e.data.contains '/' = false ∧
          containsDotDot e = false) := by
  refine ⟨?_, by decide, by decide, by decide, by decide, by decide, by decide, ?_⟩
  · intro s h
    rcases sanitize_executable_spec s with h0 | ⟨_, hne, hnd, hndd, hslash, hdots⟩
    · exact h0
    · rcases h with h | h | h | h | h
      · exact absurd h hne
      · exact absurd h hnd
      · exact absurd h hndd
      · rw [hslash] at h; exact absurd h (by decide)
      · rw [hdots] at h; exact absurd h (by decide)
  · intro pl e hge hne
    unfold get_executable at hge
    split at hge
    · rename_i s hs
      injection hge with h'
      rcases sanitize_executable_spec s with h0 | ⟨heq, _, hnd, hndd, hslash, hdots⟩
      · rw [h0] at h'; exact absurd h'.symm hne
      · rw [heq] at h'
        subst h'
        exact ⟨hnd, hndd, hslash, hdots⟩
    · exact absurd hge (by simp)
    · injection hge with h'
      exact absurd h'.symm hne

/-- Closed witness for C5: `get_executable` on a clean descriptor yields
the declared name, and that name passes all four checks. -/
theorem sanitize_executable_rejects_witness :
    get_executable [("CFBundleExecutable", .pstr "Demo")] = .ok "Demo" ∧
    ("Demo" : String) ≠ "" ∧
    (("Demo" : String) ≠ "." ∧ ("Demo" : String) ≠ ".." ∧
      ("Demo" : String).data.contains '/' = false ∧
      containsDotDot "Demo" = false) ∧
    (("a/b" : String) = "" ∨ ("a/b" : String) = "." ∨ ("a/b" : String) = ".." ∨
        ("a/b" : String).data.contains '/' = true ∨ containsDotDot "a/b" = true) ∧
    sanitize_executable "a/b" = "" :=
  ⟨by rfl, by decide,
    sanitize_executable_rejects.2.2.2.2.2.2.2
      [("CFBundleExecutable", .pstr "Demo")] "Demo" (by rfl) (by decide),
    Or.inr (Or.inr (Or.inr (Or.inl (by decide)))),
    sanitize_executable_rejects.1 "a/b"
      (Or.inr (Or.inr (Or.inr (Or.inl (by decide)))))⟩

/-- Claim C7: `patch_plist` (both tag and untag) modifies only the
`CFBundleSignature` field: every other key keeps its value, whatever
its type. -/
theorem patch_plist_preserves_other_fields (hash : String) (revert : Bool)
    (pl : Plist) (k : String) (h : k ≠ "CFBundleSignature") :
    lookupKey (patch_plist hash revert pl) k = lookupKey pl k := by
  unfold patch_plist
  split <;> exact lookupKey_setKey_ne h pl _

/-- Closed witness for C7: tagging and untagging a descriptor with a
string, a binary-data and a nested-mapping field leave all three
unchanged. -/
theorem patch_plist_preserves_other_fields_witness :
    (("CFBundleVersion" : String) ≠ "CFBundleSignature" ∧
      lookupKey (patch_plist "TAG" false
          [("CFBundleVersion", .pstr "1.0"), ("Blob", .pdata [0, 255]),
           ("Caps", .pdict [("arm64", .pbool true)]),
           ("CFBundleSignature", .pstr "old")]) "CFBundleVersion"
        = lookupKey
          [("CFBundleVersion", .pstr "1.0"), ("Blob", .pdata [0, 255]),
           ("Caps", .pdict [("arm64", .pbool true)]),
           ("CFBundleSignature", .pstr "old")] "CFBundleVersion") ∧
    (("Blob" : String) ≠ "CFBundleSignature" ∧
      lookupKey (patch_plist "TAG" true
          [("CFBundleVersion", .pstr "1.0"), ("Blob", .pdata [0, 255]),
           ("Caps", .pdict [("arm64", .pbool true)]),
           ("CFBundleSignature", .pstr "old")]) "Blob"
        = lookupKey
          [("CFBundleVersion", .pstr "1.0"), ("Blob", .pdata [0, 255]),
           ("Caps", .pdict [("arm64", .pbool true)]),
           ("CFBundleSignature", .pstr "old")] "Blob") :=
  ⟨⟨by decide, patch_plist_preserves_other_fields "TAG" false _ "CFBundleVersion" (by decide)⟩,
   ⟨by decide, patch_plist_preserves_other_fields "TAG" true _ "Blob" (by decide)⟩⟩

/-- Claim C8: tagging is idempotent — applying `patch_plist` with the
same endpoint tag twice produces the identical descriptor (field for
field, including entry order) as applying it once; this holds for every
tag value, the empty string included. -/
theorem patch_plist_tag_idempotent (hash : String) (pl : Plist) :
    patch_plist hash false (patch_plist hash false pl)
      = patch_plist hash false pl := by
  unfold patch_plist
  simp [setKey_setKey_self]

/-- Claim C9: `untag` (`patch_plist` with `revert = true`) sets
`CFBundleSignature` to the fixed placeholder `"????"`, whatever the
field held before — in particular on a descriptor previously tagged
with any endpoint tag. -/
theorem patch_plist_untag_sets_placeholder (hash hash' : String) (pl : Plist) :
    lookupKey (patch_plist hash true pl) "CFBundleSignature"
        = some (.pstr "????") ∧
    lookupKey (patch_plist hash true (patch_plist hash' false pl))
        "CFBundleSignature" = some (.pstr "????") := by
  unfold patch_plist
  simp [lookupKey_setKey_self]

/-- Claim C10: the sanitiser is a pure accept/reject filter — it returns
either `""` or its input unchanged — and is therefore idempotent. -/
theorem sanitize_executable_filter_idempotent (s : String) :
    (sanitize_executable s = "" ∨ sanitize_executable s = s) ∧
    sanitize_executable (sanitize_executable s) = sanitize_executable s := by
  rcases sanitize_executable_spec s with h | ⟨heq, _⟩
  · refine ⟨Or.inl h, ?_⟩
    rw [h]
    decide
  · refine ⟨Or.inr heq, ?_⟩
    rw [heq]
    exact heq

/-! ### Claim theorems: archive guard -/

/-- The files materialised on disk by an extraction result: the write
list on success, nothing when the call raised. -/
def extractedWrites
    (r : Except ArchiveError (List (List String × List Nat))) :
    List (List String × List Nat) :=
  match r with
  | .ok ws => ws
  | .error _ => []

/-- Claim C1: an archive containing any entry whose resolved destination
(resolved against the canonical absolute extraction directory) is not
strictly beneath that directory is rejected whole: `_safe_extract_zip`
raises the unsafe-path error and writes no file or directory, because
the containment check is a pre-pass over the full member listing that
runs before `extractall`. The unsafe entry may sit anywhere in the
listing — entries before it are not written either. -/
theorem safe_extract_rejects_traversal
    (entries : List (String × List Nat)) (extractDir : List String)
    (h : ∃ m ∈ entries, entrySafe (normSegs extractDir) m.1 = false) :
    safe_extract_zip entries extractDir = .error .unsafePath ∧
    extractedWrites (safe_extract_zip entries extractDir) = [] := by
  obtain ⟨m, hm, hf⟩ := h
  have hall :
      ¬(entries.all (fun x => entrySafe (normSegs extractDir) x.1) = true) := by
    intro hall
    have := List.all_eq_true.mp hall m hm
    rw [hf] at this
    exact absurd this (by decide)
  have h1 : safe_extract_zip entries extractDir = .error .unsafePath := by
    unfold safe_extract_zip
    rw [if_neg hall]
  exact ⟨h1, by rw [h1]; rfl⟩

/-- Closed witness for C1: a two-entry archive whose second entry
escapes via `../..` is rejected with no write, even though its first
entry is safe. -/
theorem safe_extract_rejects_traversal_witness :
    (∃ m ∈ ([("docs/readme.txt", [104, 105]), ("../../evil.sh", [101])] :
        List (String × List Nat)),
      entrySafe (normSegs ["tmp", "scratch"]) m.1 = false) ∧
    safe_extract_zip
        [("docs/readme.txt", [104, 105]), ("../../evil.sh", [101])]
        ["tmp", "scratch"] = .error .unsafePath ∧
    extractedWrites (safe_extract_zip
        [("docs/readme.txt", [104, 105]), ("../../evil.sh", [101])]
        ["tmp", "scratch"]) = [] :=
  ⟨⟨("../../evil.sh", [101]), by decide, by decide⟩,
    safe_extract_rejects_traversal _ _
      ⟨("../../evil.sh", [101]), by decide, by decide⟩⟩

/-! ### Claim theorems: pipeline no-op and failure framing -/

/-- Claim C3: when the extracted archive has no top-level `Payload`
directory (absent or a plain file), or no entry ending in `.app` inside
`Payload`, or its bundle metadata yields no usable `CFBundleExecutable`
value (`get_executable` returns `''`, covering an absent key and a name
rejected by the sanitiser), `patch_ipa` returns normally and the archive
file at the input path is never touched — it stays byte-for-byte the
input archive. -/
theorem patch_ipa_noop_preserves_archive (f : Faults) (hash : String)
    (mainBytes musselBytes : List Nat) (mainMode musselMode : Nat)
    (orig : Tree)
    (hext : f.extractOk = true)
    (h : lookupKey orig "Payload" = none
       ∨ (∃ c m, lookupKey orig "Payload" = some (.file c m))
       ∨ (∃ payload, lookupKey orig "Payload" = some (.dir payload) ∧
            (payload.map Prod.fst).filter (fun n => endsWithStr n ".app")
              = [])
       ∨ (∃ payload appName rest bch pl plMode,
            lookupKey orig "Payload" = some (.dir payload) ∧
            (payload.map Prod.fst).filter (fun n => endsWithStr n ".app")
              = appName :: rest ∧
            lookupKey payload appName = some (.dir bch) ∧
            lookupKey bch "Info.plist" = some (.file (.plist pl) plMode) ∧
            get_executable pl = .ok "")) :
    patch_ipa f hash mainBytes musselBytes mainMode musselMode orig
      = ⟨.ok (), some orig⟩ := by
  rcases h with h | ⟨c, m, h⟩ | ⟨payload, h1, h2⟩ |
    ⟨payload, appName, rest, bch, pl, plMode, h1, h2, h3, h4, h5⟩
  all_goals simp [patch_ipa, hext, *]

/-- Closed witness for C3: a bundle whose `CFBundleExecutable` is the
path-carrying name `a/b` (rejected by the sanitiser) leaves the archive
exactly as it was. -/
theorem patch_ipa_noop_preserves_archive_witness :
    Faults.allOk.extractOk = true ∧
    patch_ipa Faults.allOk "TAG" [1] [2] 420 420
        [("Payload", .dir [("X.app", .dir [("Info.plist",
          .file (.plist [("CFBundleExecutable", .pstr "a/b")]) 420)])])]
      = ⟨.ok (), some [("Payload", .dir [("X.app", .dir [("Info.plist",
          .file (.plist [("CFBundleExecutable", .pstr "a/b")]) 420)])])]⟩ :=
  ⟨rfl, patch_ipa_noop_preserves_archive Faults.allOk "TAG" [1] [2] 420 420 _
    rfl
    (Or.inr (Or.inr (Or.inr ⟨[("X.app", .dir [("Info.plist",
      .file (.plist [("CFBundleExecutable", .pstr "a/b")]) 420)])],
      "X.app", [],
      [("Info.plist", .file (.plist [("CFBundleExecutable", .pstr "a/b")]) 420)],
      [("CFBundleExecutable", .pstr "a/b")], 420,
      rfl, rfl, rfl, rfl, by rfl⟩)))⟩

set_option maxHeartbeats 1000000 in
/-- Exhaustive case split on the archive slot after a `patch_ipa` run:
either the archive file is untouched, or the run raised at the rebuild
step with the archive already deleted, or the run succeeded. -/
theorem patch_ipa_archive_cases (f : Faults) (hash : String)
    (mainBytes musselBytes : List Nat) (mainMode musselMode : Nat)
    (orig : Tree) :
    (patch_ipa f hash mainBytes musselBytes mainMode musselMode orig).archive
        = some orig ∨
    patch_ipa f hash mainBytes musselBytes mainMode musselMode orig
        = ⟨.error .rebuildFailed, none⟩ ∨
    (∃ t, patch_ipa f hash mainBytes musselBytes mainMode musselMode orig
        = ⟨.ok (), some t⟩) := by
  by_cases h1 : f.extractOk = false
  · left; simp [patch_ipa, h1]
  · rcases hpay : lookupKey orig "Payload" with _ | (⟨c, m⟩ | payload)
    · left; simp [patch_ipa, h1, hpay]
    · left; simp [patch_ipa, h1, hpay]
    · rcases happ : (payload.map Prod.fst).filter (fun n => endsWithStr n ".app")
        with _ | ⟨appName, rest⟩
      · left; simp [patch_ipa, h1, hpay, happ]
      · rcases hb : lookupKey payload appName with _ | (⟨c, m⟩ | bch)
        · left; simp [patch_ipa, h1, hpay, happ, hb]
        · left; simp [patch_ipa, h1, hpay, happ, hb]
        · rcases hpl : lookupKey bch "Info.plist" with _ | (⟨b | pl, plMode⟩ | ch)
          · left; simp [patch_ipa, h1, hpay, happ, hb, hpl]
          · left; simp [patch_ipa, h1, hpay, happ, hb, hpl]
          · rcases hge : get_executable pl with u | e
            · left; simp [patch_ipa, h1, hpay, happ, hb, hpl, hge]
            · by_cases he : e = ""
              · left; simp [patch_ipa, h1, hpay, happ, hb, hpl, hge, he]
              · by_cases h2 : f.plistWriteOk = false
                · left; simp [patch_ipa, h1, hpay, happ, hb, hpl, hge, he, h2]
                · by_cases h3 : f.moveOk = false
                  · left; simp [patch_ipa, h1, hpay, happ, hb, hpl, hge, he, h2, h3]
                  · rcases hmv : lookupKey (setKey bch "Info.plist"
                        (.file (.plist (patch_plist hash false pl)) plMode)) e
                      with _ | execNode
                    · left
                      simp [patch_ipa, h1, hpay, happ, hb, hpl, hge, he, h2, h3, hmv]
                    · by_cases h4 : f.copyMainOk = false
                      · left
                        simp [patch_ipa, h1, hpay, happ, hb, hpl, hge, he, h2, h3,
                          hmv, h4]
                      · by_cases h5 : f.copyMusselOk = false
                        · left
                          simp [patch_ipa, h1, hpay, happ, hb, hpl, hge, he, h2, h3,
                            hmv, h4, h5]
                        · by_cases h6 : f.chmodMainOk = false
                          · left
                            simp [patch_ipa, h1, hpay, happ, hb, hpl, hge, he, h2,
                              h3, hmv, h4, h5, h6]
                          · by_cases h7 : f.chmodMusselOk = false
                            · left
                              simp [patch_ipa, h1, hpay, happ, hb, hpl, hge, he, h2,
                                h3, hmv, h4, h5, h6, h7]
                            · by_cases h8 : f.rebuildOk = false
                              · right; left
                                simp [patch_ipa, h1, hpay, happ, hb, hpl, hge, he,
                                  h2, h3, hmv, h4, h5, h6, h7, h8]
                              · right; right
                                refine ⟨[("Payload", .dir (setKey payload appName
                                  (.dir (chmodKey (chmodKey (setKey (setKey (setKey
                                    (removeKey (setKey bch "Info.plist"
                                      (.file (.plist (patch_plist hash false pl))
                                        plMode)) e)
                                    (e ++ ".hooked") execNode)
                                    e (.file (.raw mainBytes) mainMode))
                                    "mussel" (.file (.raw musselBytes) musselMode))
                                    e 511) "mussel" 511))))], ?_⟩
                                simp [patch_ipa, h1, hpay, happ, hb, hpl, hge,
                                  he, h2, h3, hmv, h4, h5, h6, h7, h8]
          · left; simp [patch_ipa, h1, hpay, happ, hb, hpl]

/-- Claim C6: when `patch_ipa` raises at any step that precedes the
deletion of the original archive — unsafe or malformed archive, metadata
descriptor missing, unparseable or unwritable, executable rename
failure, binary copy or chmod failure — the error is surfaced and the
archive file at the input path is unchanged: every mutation up to that
point touches only the scratch directory. -/
theorem patch_ipa_prefail_preserves_archive (f : Faults) (hash : String)
    (mainBytes musselBytes : List Nat) (mainMode musselMode : Nat)
    (orig : Tree) (e : PatchError)
    (herr : (patch_ipa f hash mainBytes musselBytes mainMode
        musselMode orig).outcome = .error e)
    (hne : e ≠ .rebuildFailed) :
    (patch_ipa f hash mainBytes musselBytes mainMode musselMode
        orig).archive = some orig := by
  rcases patch_ipa_archive_cases f hash mainBytes musselBytes mainMode
      musselMode orig with hc | hc | ⟨t, hc⟩
  · exact hc
  · rw [hc] at herr
    injection herr with h'
    exact absurd h'.symm hne
  · rw [hc] at herr
    simp at herr

/-- Closed witness for C6: with a rename failure injected on a
well-formed archive, the run raises `moveFailed` and the archive slot
still holds the original archive — note the scratch tree was already
mutated (metadata tagged) at that point, but the archive was not. -/
theorem patch_ipa_prefail_preserves_archive_witness :
    (patch_ipa ⟨true, true, false, true, true, true, true, true⟩ "TAG"
        [1] [2] 420 420
        [("Payload", .dir [("Demo.app", .dir
          [("Info.plist",
            .file (.plist [("CFBundleExecutable", .pstr "Demo")]) 420),
           ("Demo", .file (.raw [7, 8]) 493)])])]).outcome
      = .error .moveFailed ∧
    (.moveFailed : PatchError) ≠ .rebuildFailed ∧
    (patch_ipa ⟨true, true, false, true, true, true, true, true⟩ "TAG"
        [1] [2] 420 420
        [("Payload", .dir [("Demo.app", .dir
          [("Info.plist",
            .file (.plist [("CFBundleExecutable", .pstr "Demo")]) 420),
           ("Demo", .file (.raw [7, 8]) 493)])])]).archive
      = some
        [("Payload", .dir [("Demo.app", .dir
          [("Info.plist",
            .file (.plist [("CFBundleExecutable", .pstr "Demo")]) 420),
           ("Demo", .file (.raw [7, 8]) 493)])])] :=
  ⟨rfl, by decide,
    patch_ipa_prefail_preserves_archive
      ⟨true, true, false, true, true, true, true, true⟩ "TAG" [1] [2]
      420 420 _ .moveFailed rfl (by decide)⟩

/-- Claim C2 fails on the code: `patch_ipa` runs `os.remove(path)`
before `shutil.make_archive`, so although the rebuilt archive is indeed
produced at the temporary path `path + '.zip'` and then moved over
`path`, the original archive is already gone when the rebuild starts.
With a rebuild failure injected on a well-formed archive, the run raises
and the archive slot is empty: the caller is left with the original
archive deleted and no replacement in place — exactly what the claim
says can never happen. -/
theorem repack_rebuild_failure_loses_archive :
    patch_ipa ⟨true, true, true, true, true, true, true, false⟩ "TAG"
        [1] [2] 420 420
        [("Payload", .dir [("Demo.app", .dir
          [("Info.plist",
            .file (.plist [("CFBundleExecutable", .pstr "Demo")]) 420),
           ("Demo", .file (.raw [7, 8]) 493)])])]
      = ⟨.error .rebuildFailed, none⟩ := by
  rfl

/-- Lookups in the bundle directory after the swap sequence of
`patch_ipa` (metadata rewrite; rename of the executable to `.hooked`;
copy of replacement and helper; both chmods): the renamed original, the
replacement at the executable name with mode `0o777`, the helper at
`mussel` with mode `0o777`, and the rewritten `Info.plist` are all
present. -/
theorem swap_tree_lookups (bch : Tree) (e : String) (F X : Node)
    (mb msb : List Nat) (mm msm : Nat)
    (hinfo : e ≠ "Info.plist") (hmussel : e ≠ "mussel")
    (hhi : e ++ ".hooked" ≠ "Info.plist")
    (hhm : e ++ ".hooked" ≠ "mussel") :
    lookupKey (chmodKey (chmodKey (setKey (setKey (setKey
        (removeKey (setKey bch "Info.plist" F) e) (e ++ ".hooked") X)
        e (.file (.raw mb) mm)) "mussel" (.file (.raw msb) msm))
        e 511) "mussel" 511) (e ++ ".hooked") = some X ∧
    lookupKey (chmodKey (chmodKey (setKey (setKey (setKey
        (removeKey (setKey bch "Info.plist" F) e) (e ++ ".hooked") X)
        e (.file (.raw mb) mm)) "mussel" (.file (.raw msb) msm))
        e 511) "mussel" 511) e = some (.file (.raw mb) 511) ∧
    lookupKey (chmodKey (chmodKey (setKey (setKey (setKey
        (removeKey (setKey bch "Info.plist" F) e) (e ++ ".hooked") X)
        e (.file (.raw mb) mm)) "mussel" (.file (.raw msb) msm))
        e 511) "mussel" 511) "mussel" = some (.file (.raw msb) 511) ∧
    lookupKey (chmodKey (chmodKey (setKey (setKey (setKey
        (removeKey (setKey bch "Info.plist" F) e) (e ++ ".hooked") X)
        e (.file (.raw mb) mm)) "mussel" (.file (.raw msb) msm))
        e 511) "mussel" 511) "Info.plist" = some F := by
  have hmi : ("Info.plist" : String) ≠ "mussel" := by decide
  have h1 : lookupKey (setKey (setKey (setKey
      (removeKey (setKey bch "Info.plist" F) e) (e ++ ".hooked") X)
      e (.file (.raw mb) mm)) "mussel" (.file (.raw msb) msm)) e
      = some (.file (.raw mb) mm) := by
    rw [lookupKey_setKey_ne hmussel, lookupKey_setKey_self]
  have h2 : chmodKey (setKey (setKey (setKey
      (removeKey (setKey bch "Info.plist" F) e) (e ++ ".hooked") X)
      e (.file (.raw mb) mm)) "mussel" (.file (.raw msb) msm)) e 511
      = setKey (setKey (setKey (setKey
          (removeKey (setKey bch "Info.plist" F) e) (e ++ ".hooked") X)
          e (.file (.raw mb) mm)) "mussel" (.file (.raw msb) msm))
          e (.file (.raw mb) 511) := by
    unfold chmodKey
    rw [h1]
  have h3 : lookupKey (setKey (setKey (setKey (setKey
      (removeKey (setKey bch "Info.plist" F) e) (e ++ ".hooked") X)
      e (.file (.raw mb) mm)) "mussel" (.file (.raw msb) msm))
      e (.file (.raw mb) 511)) "mussel" = some (.file (.raw msb) msm) := by
    rw [lookupKey_setKey_ne (Ne.symm hmussel), lookupKey_setKey_self]
  have h4 : chmodKey (setKey (setKey (setKey (setKey
      (removeKey (setKey bch "Info.plist" F) e) (e ++ ".hooked") X)
      e (.file (.raw mb) mm)) "mussel" (.file (.raw msb) msm))
      e (.file (.raw mb) 511)) "mussel" 511
      = setKey (setKey (setKey (setKey (setKey
          (removeKey (setKey bch "Info.plist" F) e) (e ++ ".hooked") X)
          e (.file (.raw mb) mm)) "mussel" (.file (.raw msb) msm))
          e (.file (.raw mb) 511)) "mussel" (.file (.raw msb) 511) := by
    unfold chmodKey
    rw [h3]
  rw [h2, h4]
  refine ⟨?_, ?_, ?_, ?_⟩
  · rw [lookupKey_setKey_ne hhm, lookupKey_setKey_ne (append_hooked_ne e),
      lookupKey_setKey_ne hhm, lookupKey_setKey_ne (append_hooked_ne e),
      lookupKey_setKey_self]
  · rw [lookupKey_setKey_ne hmussel, lookupKey_setKey_self]
  · rw [lookupKey_setKey_self]
  · rw [lookupKey_setKey_ne hmi, lookupKey_setKey_ne (Ne.symm hinfo),
      lookupKey_setKey_ne hmi, lookupKey_setKey_ne (Ne.symm hinfo),
      lookupKey_setKey_ne (Ne.symm hhi),
      lookupKey_removeKey_ne (Ne.symm hinfo), lookupKey_setKey_self]

/-- Claim C4: on a well-formed archive whose bundle `appName` (ending in
`.app`) declares executable `e`, a fault-free `patch_ipa` run succeeds
and rebuilds the archive at the original path so that it contains
`Payload/appName/e.hooked` with the original executable's exact content
(and mode), `Payload/appName/e` with the replacement binary's exact
bytes, `Payload/appName/mussel` with the helper binary's exact bytes,
both copied files carrying permission mode `0o777` (511), and the
bundle's metadata carrying `CFBundleSignature` equal to the supplied
endpoint tag. -/
theorem patch_ipa_roundtrip_swap (hash : String)
    (mainBytes musselBytes : List Nat) (mainMode musselMode : Nat)
    (orig payload bch : Tree) (appName e : String) (rest : List String)
    (pl : Plist) (plMode : Nat) (execC : FileContent) (execMode : Nat)
    (hpay : lookupKey orig "Payload" = some (.dir payload))
    (happ : (payload.map Prod.fst).filter (fun n => endsWithStr n ".app")
        = appName :: rest)
    (hb : lookupKey payload appName = some (.dir bch))
    (hpl : lookupKey bch "Info.plist" = some (.file (.plist pl) plMode))
    (hexe : get_executable pl = .ok e)
    (hne : e ≠ "")
    (hexec : lookupKey bch e = some (.file execC execMode))
    (hinfo : e ≠ "Info.plist") (hmussel : e ≠ "mussel")
    (hhi : e ++ ".hooked" ≠ "Info.plist")
    (hhm : e ++ ".hooked" ≠ "mussel") :
    ∃ payload1 bch1,
      patch_ipa Faults.allOk hash mainBytes musselBytes mainMode musselMode
          orig = ⟨.ok (), some [("Payload", .dir payload1)]⟩ ∧
      lookupKey payload1 appName = some (.dir bch1) ∧
      lookupKey bch1 (e ++ ".hooked") = some (.file execC execMode) ∧
      lookupKey bch1 e = some (.file (.raw mainBytes) 511) ∧
      lookupKey bch1 "mussel" = some (.file (.raw musselBytes) 511) ∧
      lookupKey bch1 "Info.plist"
        = some (.file (.plist (patch_plist hash false pl)) plMode) ∧
      lookupKey (patch_plist hash false pl) "CFBundleSignature"
        = some (.pstr hash) := by
  have hmv : lookupKey (setKey bch "Info.plist"
      (.file (.plist (patch_plist hash false pl)) plMode)) e
      = some (.file execC execMode) := by
    rw [lookupKey_setKey_ne hinfo, hexec]
  obtain ⟨hk1, hk2, hk3, hk4⟩ :=
    swap_tree_lookups bch e
      (.file (.plist (patch_plist hash false pl)) plMode)
      (.file execC execMode) mainBytes musselBytes mainMode musselMode
      hinfo hmussel hhi hhm
  refine ⟨setKey payload appName (.dir (chmodKey (chmodKey (setKey (setKey
      (setKey (removeKey (setKey bch "Info.plist"
        (.file (.plist (patch_plist hash false pl)) plMode)) e)
      (e ++ ".hooked") (.file execC execMode))
      e (.file (.raw mainBytes) mainMode))
      "mussel" (.file (.raw musselBytes) musselMode))
      e 511) "mussel" 511)),
    chmodKey (chmodKey (setKey (setKey (setKey
      (removeKey (setKey bch "Info.plist"
        (.file (.plist (patch_plist hash false pl)) plMode)) e)
      (e ++ ".hooked") (.file execC execMode))
      e (.file (.raw mainBytes) mainMode))
      "mussel" (.file (.raw musselBytes) musselMode))
      e 511) "mussel" 511,
    ?_, ?_, hk1, hk2, hk3, hk4, ?_⟩
  · simp [patch_ipa, Faults.allOk, hpay, happ, hb, hpl, hexe, hne, hmv]
  · rw [lookupKey_setKey_self]
  · unfold patch_plist
    simp [lookupKey_setKey_self]

/-- Closed witness for C4: the spec's scenario archive
`Payload/Demo.app/{Info.plist, Demo}` patched with the scenario endpoint
tag; all hypotheses hold by evaluation. -/
theorem patch_ipa_roundtrip_swap_witness :
    get_executable [("CFBundleExecutable", .pstr "Demo")] = .ok "Demo" ∧
    ("Demo" : String) ≠ "" ∧
    lookupKey ([("Info.plist",
        .file (.plist [("CFBundleExecutable", .pstr "Demo")]) 420),
      ("Demo", .file (.raw [7, 8]) 493)] : Tree) "Demo"
      = some (.file (.raw [7, 8]) 493) ∧
    (∃ payload1 bch1,
      patch_ipa Faults.allOk "dGNwOi8vMS4yLjMuNDo0NDQ0" [1, 2] [3, 4] 420 420
          [("Payload", .dir [("Demo.app", .dir
            [("Info.plist",
              .file (.plist [("CFBundleExecutable", .pstr "Demo")]) 420),
             ("Demo", .file (.raw [7, 8]) 493)])])]
        = ⟨.ok (), some [("Payload", .dir payload1)]⟩ ∧
      lookupKey payload1 "Demo.app" = some (.dir bch1) ∧
      lookupKey bch1 ("Demo" ++ ".hooked") = some (.file (.raw [7, 8]) 493) ∧
      lookupKey bch1 "Demo" = some (.file (.raw [1, 2]) 511) ∧
      lookupKey bch1 "mussel" = some (.file (.raw [3, 4]) 511) ∧
      lookupKey bch1 "Info.plist" = some (.file (.plist
        (patch_plist "dGNwOi8vMS4yLjMuNDo0NDQ0" false
          [("CFBundleExecutable", .pstr "Demo")])) 420) ∧
      lookupKey (patch_plist "dGNwOi8vMS4yLjMuNDo0NDQ0" false
          [("CFBundleExecutable", .pstr "Demo")]) "CFBundleSignature"
        = some (.pstr "dGNwOi8vMS4yLjMuNDo0NDQ0")) :=
  ⟨by rfl, by decide, by rfl,
    patch_ipa_roundtrip_swap "dGNwOi8vMS4yLjMuNDo0NDQ0" [1, 2] [3, 4] 420 420
      _ _ _ "Demo.app" "Demo" [] _ 420 (.raw [7, 8]) 493
      rfl rfl rfl rfl (by rfl) (by decide) rfl (by decide) (by decide)
      (by decide) (by decide)⟩

end SeaShell
